import Mathlib

/-!
Verification of the CampusSetu retrieval-augmented QA pipeline.

Shallow embedding of the Python sources:
  src/ingestion.py  (get_embeddings, add_document_to_db)
  src/db.py         (insert, fetch_similar_documents)
  src/main.py       (answer_query)
  src/agent.py      (get_gemini_response)
  src/api.py        (process_date)
  src/app.py        (get_answer)

External collaborators (the Gemini embedding service, the Gemini generative
service, and the storage engine's cosine-distance operator) are modelled as
oracle parameters; a raised exception in an external call is the oracle
returning `none`.  Vectors are lists of rationals.
-/

namespace CampusSetu

/-- An embedding vector (a fixed-length list of floats in the source). -/
abbrev Vec := List ℚ

/-- The external embedding service: one call embeds a batch of strings.
`none` models the call raising an exception. -/
abbrev EmbedSvc := List String → Option (List Vec)

/-- Embeds `get_embeddings` from src/ingestion.py, instrumented with a trace.

The Python loop `for i in range(0, len(chunks), 100)` issues the service call
on `chunks[i:i+100]` and extends the accumulator with the returned vectors;
the whole body sits in one `try`, so an exception in any batch discards every
partial result and the function returns `None`.

The second component of the result is the list of batches actually issued to
the service, in order; when a batch raises, no later batch is issued. -/
def get_embeddings_tr (svc : EmbedSvc) (chunks : List String) :
    Option (List Vec) × List (List String) :=
  if h : chunks = [] then (some [], [])
  else
    match svc (chunks.take 100) with
    | none => (none, [chunks.take 100])
    | some vs =>
        let r := get_embeddings_tr svc (chunks.drop 100)
        (r.1.map (fun rest => vs ++ rest), chunks.take 100 :: r.2)
termination_by chunks.length
decreasing_by
  simp only [List.length_drop]
  have hpos : 0 < chunks.length := List.length_pos.2 h
  omega

/-- `get_embeddings` from src/ingestion.py: the returned value only
(`None` = the call failed). -/
def get_embeddings (svc : EmbedSvc) (chunks : List String) : Option (List Vec) :=
  (get_embeddings_tr svc chunks).1

/-- A row of the `documents` table (src/db.py `insert` stores these columns,
minus the generated `doc_id`, which no claim mentions). -/
structure Row where
  content : String
  doc_name : String
  branch : String
  year : String
  valid_from : Option String
  valid_to : Option String
  embedding : Vec
deriving DecidableEq

/-- The WHERE clause that `fetch_similar_documents` (src/db.py) builds: the
branch condition `(branch = %s OR branch = 'all')` is added only when the
passed filter is truthy (not None, not the empty string) and not `"all"`;
likewise for year.  A row is a candidate when every added condition holds. -/
def isCandidate (branch year : Option String) (r : Row) : Bool :=
  (match branch with
   | none => true
   | some b => if b == "" || b == "all" then true else r.branch == b || r.branch == "all")
  &&
  (match year with
   | none => true
   | some y => if y == "" || y == "all" then true else r.year == y || r.year == "all")

/-- A retrieval result: a stored row with its similarity score
(the dict `fetch_similar_documents` builds, keeping the row whole). -/
structure ScoredDoc where
  row : Row
  similarity : ℚ
deriving DecidableEq

/-- `ORDER BY similarity DESC`: `a` may come before `b`. -/
def scoreGe (a b : ScoredDoc) : Prop := b.similarity ≤ a.similarity

instance : DecidableRel scoreGe := fun a b => inferInstanceAs (Decidable (_ ≤ _))

instance : IsTotal ScoredDoc scoreGe := ⟨fun a b => le_total b.similarity a.similarity⟩

instance : IsTrans ScoredDoc scoreGe := ⟨fun _ _ _ h1 h2 => le_trans h2 h1⟩

/-- Embeds `fetch_similar_documents` from src/db.py.

The SQL statement computes `1 - (embedding <=> query)` as the similarity of
every row passing the WHERE clause, orders descending by that score and
limits to `top_k` rows.  The cosine-distance operator `<=>` is executed by
the external storage engine, so it is the oracle parameter `dist`; the sort
is one refinement of `ORDER BY similarity DESC` (tie order is unspecified in
SQL).  A `None` query embedding short-circuits to `[]` before any query. -/
def fetch_similar_documents (dist : Vec → Vec → ℚ) (table : List Row)
    (query_embedding : Option Vec) (top_k : Nat)
    (branch year : Option String) : List ScoredDoc :=
  match query_embedding with
  | none => []
  | some q =>
      (List.insertionSort scoreGe
        ((table.filter (isCandidate branch year)).map
          (fun r => ⟨r, 1 - dist q r.embedding⟩))).take top_k

/-- One outcome of a call to `insert` (src/db.py) as the ingestion loop sees
it.  `storeConnFail`: `get_db_connection()` (or `connection.cursor()`) raises,
so the local `cursor` is never bound; the `except` clause logs the error, and
then the `finally` clause evaluates `cursor.close()` on the unbound local,
raising `UnboundLocalError` out of `insert`.  `storeExecFail`:
`cursor.execute` or `connection.commit` raises after `cursor` is bound; the
`except` clause logs it, `finally` closes the cursor, and `insert` returns
normally with nothing committed.  `storeOk`: the row is committed. -/
inductive StoreOutcome where
  | storeOk
  | storeExecFail
  | storeConnFail
deriving DecidableEq

/-- Embeds the per-chunk loop of `add_document_to_db` (src/ingestion.py):
`for chunk, embedding in zip(chunks, embeddings): insert(...)` inside one
`try` whose `except` catches anything and returns.  `outcome i` is what the
i-th `insert` call does.  Result: (contents committed in order, number of
`insert` calls made).  An exception escaping `insert` (see `StoreOutcome`)
is caught by the loop's surrounding handler, which abandons the rest. -/
def add_document_loop (outcome : Nat → StoreOutcome) :
    List String → Nat → List String × Nat
  | [], _ => ([], 0)
  | c :: cs, i =>
      match outcome i with
      | .storeConnFail => ([], 1)
      | .storeExecFail =>
          let r := add_document_loop outcome cs (i + 1)
          (r.1, r.2 + 1)
      | .storeOk =>
          let r := add_document_loop outcome cs (i + 1)
          (c :: r.1, r.2 + 1)

/-- The external generative service: takes the assembled context (content,
doc_name pairs) and the question; `none` models the call raising. -/
abbrev GenSvc := List (String × String) → String → Option String

/-- Embeds `get_gemini_response` (src/agent.py): one generative call; on an
exception it logs and returns the fixed error string. -/
def get_gemini_response (gen : GenSvc) (context : List (String × String))
    (query : String) : String :=
  match gen context query with
  | some t => t
  | none => "Error fetching response from Gemini API."

/-- Embeds `answer_query` (src/main.py), instrumented with whether the
generative service was invoked.

Step by step: `get_embeddings([query])[0]` — if the embedding call failed
(`None`) the subscript raises `TypeError`, if it returned an empty list the
subscript raises `IndexError`; both land in the function's `except`, which
returns "Error processing your query.".  Otherwise
`fetch_similar_documents(query_embedding, top_k=7, branch, year)` runs; an
empty result returns the no-context sentinel without touching the generative
service; otherwise the (content, doc_name) context is assembled and
`get_gemini_response` is called once. -/
def answer_query_tr (svc : EmbedSvc) (dist : Vec → Vec → ℚ) (table : List Row)
    (gen : GenSvc) (query : String) (branch year : Option String) :
    String × Bool :=
  match get_embeddings svc [query] with
  | none => ("Error processing your query.", false)
  | some [] => ("Error processing your query.", false)
  | some (qe :: _) =>
      let similar_docs := fetch_similar_documents dist table (some qe) 7 branch year
      if similar_docs.isEmpty then
        ("No relevant context found in the database.", false)
      else
        let context := similar_docs.map (fun d => (d.row.content, d.row.doc_name))
        (get_gemini_response gen context query, true)

/-- `answer_query`'s returned string. -/
def answer_query (svc : EmbedSvc) (dist : Vec → Vec → ℚ) (table : List Row)
    (gen : GenSvc) (query : String) (branch year : Option String) : String :=
  (answer_query_tr svc dist table gen query branch year).1

/-- The arguments `get_answer` (src/app.py, UI question-answering path)
passes to `answer_query`: the call is `answer_query(query)`, so the user's
selected branch, year and number-of-sources never reach the pipeline and the
Python defaults `branch="all"`, `year="all"` apply (with `top_k=7` fixed
inside `answer_query`). -/
def appAnswerArgs (query branch year : String) (top_k : Nat) :
    String × Option String × Option String :=
  (query, some "all", some "all")

/-- Embeds the pipeline call inside `get_answer` (src/app.py): the answer the
UI displays for the user's (query, branch, year, top_k) selection. -/
def get_answer (svc : EmbedSvc) (dist : Vec → Vec → ℚ) (table : List Row)
    (gen : GenSvc) (query branch year : String) (top_k : Nat) : String :=
  answer_query svc dist table gen
    (appAnswerArgs query branch year top_k).1
    (appAnswerArgs query branch year top_k).2.1
    (appAnswerArgs query branch year top_k).2.2

/-- The whitespace characters Python's `str.strip()` removes (the ASCII ones;
the source only ever meets ASCII form input here). -/
def isPySpace (c : Char) : Bool :=
  c == ' ' || c == '\t' || c == '\n' || c == '\r' || c == '\x0b' || c == '\x0c'

/-- Python `str.strip()` on ASCII text. -/
def pyStrip (s : String) : String :=
  ⟨((s.data.dropWhile isPySpace).reverse.dropWhile isPySpace).reverse⟩

/-- Python `str.lower()` on ASCII text. -/
def pyLower (s : String) : String :=
  ⟨s.data.map Char.toLower⟩

/-- The literal tokens `process_date` (src/api.py) normalizes away:
`date_str.lower() in ["", "null", "none", "string"]`. -/
def lowerTokens : List String := ["", "null", "none", "string"]

/-- Splits a character list on ASCII '-' (every occurrence, keeping empty
parts), the shape `strptime(date_str, "%Y-%m-%d")` imposes. -/
def splitDashAux : List Char → List Char → List (List Char)
  | acc, [] => [acc.reverse]
  | acc, c :: cs =>
      if c == '-' then acc.reverse :: splitDashAux [] cs
      else splitDashAux (c :: acc) cs

/-- `splitDash l`: the '-'-separated components of `l`. -/
def splitDash (l : List Char) : List (List Char) := splitDashAux [] l

/-- CPython `_strptime` matches `%Y` with the regex `\d\d\d\d`:
exactly four digits. -/
def yearRe (l : List Char) : Bool :=
  l.length == 4 && l.all (fun c => c.isDigit)

/-- CPython `_strptime` matches `%m` with `1[0-2]|0[1-9]|[1-9]`. -/
def monthRe (l : List Char) : Bool :=
  match l with
  | ['1', c] => c == '0' || c == '1' || c == '2'
  | ['0', c] => c.isDigit && c != '0'
  | [c] => c.isDigit && c != '0'
  | _ => false

/-- CPython `_strptime` matches `%d` with `3[01]|[12]\d|0[1-9]|[1-9]| [1-9]`
(note the space-padded alternative). -/
def dayRe (l : List Char) : Bool :=
  match l with
  | ['3', c] => c == '0' || c == '1'
  | [c1, c2] =>
      ((c1 == '1' || c1 == '2') && c2.isDigit) ||
      ((c1 == '0' || c1 == ' ') && c2.isDigit && c2 != '0')
  | [c] => c.isDigit && c != '0'
  | _ => false

/-- The numeric value of a digit string (leading day-padding space dropped,
as `int` conversion after the `%d` regex does). -/
def digitsVal (l : List Char) : Nat :=
  (l.dropWhile (fun c => c == ' ')).foldl
    (fun n c => 10 * n + (c.toNat - '0'.toNat)) 0

/-- Gregorian leap year, as `datetime` uses it. -/
def isLeap (y : Nat) : Bool :=
  y % 4 == 0 && (!(y % 100 == 0) || y % 400 == 0)

/-- Days in a month, as `datetime` validates the day-of-month. -/
def daysInMonth (y m : Nat) : Nat :=
  if m == 2 then (if isLeap y then 29 else 28)
  else if m == 4 || m == 6 || m == 9 || m == 11 then 30
  else 31

/-- `datetime.strptime(s, "%Y-%m-%d")` succeeds: the string is exactly
`%Y-%m-%d` with the CPython component regexes, the year is at least 1
(`datetime.MINYEAR`), and the day exists in that month (the `datetime`
constructor's calendar check). -/
def validYMD (s : String) : Bool :=
  match splitDash s.data with
  | [ys, ms, ds] =>
      yearRe ys && monthRe ms && dayRe ds &&
      decide (1 ≤ digitsVal ys) &&
      decide (digitsVal ds ≤ daysInMonth (digitsVal ys) (digitsVal ms))
  | _ => false

/-- Embeds `process_date` (src/api.py, inside `upload_document`): a falsy or
token-valued string normalizes to `None` (no constraint); a string that fails
strict `%Y-%m-%d` parsing likewise normalizes to `None` (the `except
ValueError` branch); a parseable date passes through unchanged. -/
def process_date (s : String) : Option String :=
  if s == "" || pyStrip s == "" || lowerTokens.contains (pyLower s) then none
  else if validYMD s then some s else none

/-- Modelled from the spec: the Chunker (§4.1).  The repository delegates
splitting to langchain's `RecursiveCharacterTextSplitter(chunk_size=1000,
chunk_overlap=200)`, whose code is not under src/; the spec describes the
intended algorithm as a sliding window over the text advancing by
`chunk_size - chunk_overlap` per step, emitting one final chunk when the
remaining text fits in one window.  `chunkText S O t` is that window walk
(the `S ≤ O` guard only keeps the recursion well-founded; every claim
assumes `O < S`). -/
def chunkText (S O : Nat) (t : List Char) : List (List Char) :=
  if h : t.length ≤ S ∨ S ≤ O then [t]
  else t.take S :: chunkText S O (t.drop (S - O))
termination_by t.length
decreasing_by
  simp only [List.length_drop]
  omega


/-! Concrete service oracles, rows and outcome streams used by the witness
and counterexample theorems below. -/

/-- A deterministic per-string embedding (the string's length). -/
def exEmbedF : String → Vec := fun s => [(s.length : ℚ)]

/-- An embedding service honouring the contract: one vector per input. -/
def exSvcF : EmbedSvc := fun bs => some (bs.map exEmbedF)

/-- An embedding service returning the constant vector `[0]` per input. -/
def exSvcV : EmbedSvc := fun bs => some (bs.map (fun _ => ([0] : Vec)))

/-- An embedding service whose every call raises. -/
def failSvc : EmbedSvc := fun _ => none

/-- An embedding service that succeeds but returns no vectors at all. -/
def shortSvc : EmbedSvc := fun _ => some []

/-- A generative service whose every call raises. -/
def genNone : GenSvc := fun _ _ => none

/-- A stored chunk tagged branch "CSE", year "2025". -/
def exRowCSE : Row :=
  { content := "sched", doc_name := "tt", branch := "CSE", year := "2025",
    valid_from := none, valid_to := none, embedding := [1] }

/-- A cosine-distance oracle that reports distance 0 for every pair. -/
def distZero : Vec → Vec → ℚ := fun _ _ => 0

/-- Outcome stream: the second `insert` call hits a connection failure. -/
def exOutcomeConn : Nat → StoreOutcome :=
  fun i => if i = 1 then .storeConnFail else .storeOk

/-- Outcome stream: the second `insert` call hits an execute/commit failure. -/
def exOutcomeExec : Nat → StoreOutcome :=
  fun i => if i = 1 then .storeExecFail else .storeOk

/-- One unfolding of `get_embeddings_tr` on a nonempty chunk list. -/
theorem get_embeddings_step (svc : EmbedSvc) (cs : List String) (h : cs ≠ []) :
    get_embeddings_tr svc cs =
      (match svc (cs.take 100) with
       | none => (none, [cs.take 100])
       | some vs =>
           let r := get_embeddings_tr svc (cs.drop 100)
           (r.1.map (fun rest => vs ++ rest), cs.take 100 :: r.2)) := by
  conv_lhs => rw [get_embeddings_tr]
  simp [h]

/-- Claim C3: for every input sequence of texts, when the embedding service
honours its contract (one vector per input string per call), `get_embeddings`
returns exactly one vector per input in input order; the calls go out in
sequential batches of at most 100 (nonempty) items whose concatenation is the
input in original order; and the empty input yields `some []` with an empty
trace — no service call at all, whatever the service is. -/
theorem C3_embedding_batching :
    ∀ (svc : EmbedSvc) (f : String → Vec) (chunks : List String),
      (∀ bs : List String, bs ≠ [] → svc bs = some (bs.map f)) →
      (get_embeddings_tr svc chunks).1 = some (chunks.map f) ∧
      ((get_embeddings_tr svc chunks).2).flatten = chunks ∧
      (∀ b ∈ (get_embeddings_tr svc chunks).2, b ≠ [] ∧ b.length ≤ 100) ∧
      (∀ svc2 : EmbedSvc, get_embeddings_tr svc2 [] = (some [], [])) := by
  intro svc f chunks h
  have main : ∀ n (cs : List String), cs.length ≤ n →
      (get_embeddings_tr svc cs).1 = some (cs.map f) ∧
      ((get_embeddings_tr svc cs).2).flatten = cs ∧
      (∀ b ∈ (get_embeddings_tr svc cs).2, b ≠ [] ∧ b.length ≤ 100) := by
    intro n
    induction n with
    | zero =>
        intro cs hlen
        have hnil : cs = [] := List.length_eq_zero.1 (Nat.le_zero.1 hlen)
        subst hnil
        simp [get_embeddings_tr]
    | succ n ih =>
        intro cs hlen
        by_cases hcs : cs = []
        · subst hcs; simp [get_embeddings_tr]
        · have hpos : 0 < cs.length := List.length_pos.2 hcs
          have htake : cs.take 100 ≠ [] := by
            have : (cs.take 100).length = min 100 cs.length := List.length_take 100 cs
            intro hx
            rw [hx] at this
            simp at this
            omega
          have hsvc := h (cs.take 100) htake
          have ihr := ih (cs.drop 100) (by rw [List.length_drop]; omega)
          rw [get_embeddings_step svc cs hcs, hsvc]
          dsimp only
          refine ⟨?_, ?_, ?_⟩
          · rw [ihr.1]
            simp only [Option.map_some']
            rw [← List.map_append, List.take_append_drop]
          · simp only [List.flatten_cons]
            rw [ihr.2.1, List.take_append_drop]
          · intro b hb
            simp only [List.mem_cons] at hb
            rcases hb with hb | hb
            · subst hb
              refine ⟨htake, ?_⟩
              rw [List.length_take]
              omega
            · exact ihr.2.2 b hb
  exact ⟨(main chunks.length chunks le_rfl).1, (main chunks.length chunks le_rfl).2.1,
    (main chunks.length chunks le_rfl).2.2, fun svc2 => by simp [get_embeddings_tr]⟩



/-- Witness for C3 at the concrete service `exSvcF` and inputs
`["a", "bb"]`. -/
theorem C3_witness :
    (get_embeddings_tr exSvcF ["a", "bb"]).1 = some (["a", "bb"].map exEmbedF) ∧
    ((get_embeddings_tr exSvcF ["a", "bb"]).2).flatten = ["a", "bb"] ∧
    (∀ b ∈ (get_embeddings_tr exSvcF ["a", "bb"]).2, b ≠ [] ∧ b.length ≤ 100) ∧
    (∀ svc2 : EmbedSvc, get_embeddings_tr svc2 [] = (some [], [])) :=
  C3_embedding_batching exSvcF exEmbedF ["a", "bb"] (fun bs _ => rfl)

/-- Claim C6, amended: if any issued batch call fails, the entire embedding
operation fails (`get_embeddings` returns `none`), discarding all partial
results from earlier batches.  (The original claim's second half — that a
call returning fewer vectors than inputs is likewise an error — is refuted
by `C6_counterexample`: the code never checks the returned count.) -/
theorem C6_batch_failure_atomic :
    ∀ (svc : EmbedSvc) (chunks : List String),
      (∃ b ∈ (get_embeddings_tr svc chunks).2, svc b = none) →
      get_embeddings svc chunks = none := by
  intro svc chunks
  have main : ∀ n (cs : List String), cs.length ≤ n →
      (∃ b ∈ (get_embeddings_tr svc cs).2, svc b = none) →
      (get_embeddings_tr svc cs).1 = none := by
    intro n
    induction n with
    | zero =>
        intro cs hlen hex
        have hnil : cs = [] := List.length_eq_zero.1 (Nat.le_zero.1 hlen)
        subst hnil
        simp [get_embeddings_tr] at hex
    | succ n ih =>
        intro cs hlen hex
        by_cases hcs : cs = []
        · subst hcs; simp [get_embeddings_tr] at hex
        · rw [get_embeddings_step svc cs hcs] at hex ⊢
          cases hsvc : svc (cs.take 100) with
          | none => rfl
          | some vs =>
              rw [hsvc] at hex
              dsimp only at hex ⊢
              rcases hex with ⟨b, hb, hbn⟩
              rcases List.mem_cons.1 hb with hb | hb
              · rw [hb] at hbn
                rw [hsvc] at hbn
                cases hbn
              · have hrec := ih (cs.drop 100) (by rw [List.length_drop]; omega) ⟨b, hb, hbn⟩
                rw [hrec]
                rfl
  exact fun hex => main chunks.length chunks le_rfl hex

/-- Witness for C6 at the always-failing service and input `["a"]`. -/
theorem C6_witness : get_embeddings failSvc ["a"] = none :=
  C6_batch_failure_atomic failSvc ["a"]
    ⟨["a"], by simp [get_embeddings_tr, failSvc], rfl⟩

/-- Counterexample to C6 as stated: a service call returning fewer vectors
(zero) than inputs (one) is not turned into an error — `get_embeddings`
succeeds with the short result instead of failing. -/
theorem C6_counterexample :
    shortSvc ["a"] = some [] ∧
    get_embeddings shortSvc ["a"] = some [] ∧
    get_embeddings shortSvc ["a"] ≠ none := by
  refine ⟨rfl, ?_, ?_⟩ <;> simp [get_embeddings, get_embeddings_tr, shortSvc]



/-- Claim C5: `process_date` maps any string that is empty or whitespace-only
(`pyStrip s == ""`), or whose lowercasing is one of the literal tokens
"null"/"none"/"string", or that fails strict `%Y-%m-%d` parsing, to `none`
("no constraint"); every other string — a valid date — passes through
unchanged.  Concrete instances follow, including the invalid calendar date
"2025-13-40" and the pass-through "2025-09-01". -/
theorem C5_date_normalization :
    (∀ s : String,
        process_date s =
          if pyStrip s == "" || lowerTokens.contains (pyLower s) || !validYMD s
          then none else some s) ∧
    process_date "" = none ∧ process_date "   " = none ∧
    process_date "null" = none ∧ process_date "None" = none ∧
    process_date "string" = none ∧ process_date "2025-13-40" = none ∧
    process_date "2025-09-01" = some "2025-09-01" := by
  refine ⟨?_, by decide, by decide, by decide, by decide, by decide, by decide, by decide⟩
  intro s
  by_cases h0 : s = ""
  · subst h0; decide
  · have hne : (s == "") = false := by simp [h0]
    simp only [process_date, hne, Bool.false_or]
    cases h1 : (pyStrip s == "") <;>
      cases h2 : lowerTokens.contains (pyLower s) <;>
        cases h3 : validYMD s <;>
          simp [h1, h2, h3]

/-- Claim C9 (code bug): in a three-chunk ingestion where the second
`insert`'s database connection fails to open, `insert`'s `finally` clause
raises `UnboundLocalError` (its `cursor` local was never bound), the loop's
handler catches it, and chunk 3 is never attempted: only chunk 1 is
committed and only 2 of the 3 inserts run — the loop does not continue to
chunk N+1 as the claim states.  By contrast, an execute/commit failure on
chunk 2 (second conjunct) is swallowed inside `insert` and the loop does
continue, committing chunks 1 and 3 with all 3 inserts attempted. -/
theorem C9_ingestion_halt :
    add_document_loop exOutcomeConn ["c1", "c2", "c3"] 0 = (["c1"], 2) ∧
    add_document_loop exOutcomeExec ["c1", "c2", "c3"] 0 = (["c1", "c3"], 3) := by
  decide

/-- Claim C10: the UI's `get_answer` invokes the answer pipeline with the
query alone — the arguments passed are `(query, "all", "all")` whatever
branch, year and number-of-sources the user selected — so two runs differing
only in those selections produce identical answers. -/
theorem C10_filters_ignored :
    ∀ (svc : EmbedSvc) (dist : Vec → Vec → ℚ) (table : List Row) (gen : GenSvc)
      (q b y b2 y2 : String) (k k2 : Nat),
      appAnswerArgs q b y k = (q, some "all", some "all") ∧
      get_answer svc dist table gen q b y k = get_answer svc dist table gen q b2 y2 k2 := by
  intro svc dist table gen q b y b2 y2 k k2
  exact ⟨rfl, rfl⟩

/-- Counterexample to C1 as stated: with `branchFilter = ""` (an empty
string, as the HTTP layer can pass through), a chunk tagged branch "CSE" is
returned as a candidate, although the claim's condition
`branchFilter = "all" ∨ chunk.branch = branchFilter ∨ chunk.branch = "all"`
is false for it. -/
theorem C1_counterexample :
    (fetch_similar_documents distZero [exRowCSE] (some [1]) 5 (some "") (some "all")).map
        (fun d => d.row) = [exRowCSE] ∧
    ¬(("" = "all") ∨ (exRowCSE.branch = "") ∨ (exRowCSE.branch = "all")) := by
  constructor
  · decide
  · decide

/-- One dimension of the WHERE clause: the added condition holds exactly
when the filter is absent, empty, or "all", or matches the stored tag, or
the stored tag is "all". -/
theorem filter_dim (b : Option String) (tag : String) :
    (match b with
      | none => true
      | some s => if s == "" || s == "all" then true
                  else tag == s || tag == "all") = true ↔
      (b = none ∨ b = some "" ∨ b = some "all" ∨ b = some tag ∨ tag = "all") := by
  cases b with
  | none => simp
  | some s =>
    by_cases h1 : s = ""
    · subst h1; simp
    · by_cases h2 : s = "all"
      · subst h2; simp
      · simp only [Option.some.injEq, h1, h2, false_or]
        rw [if_neg (by simp [h1, h2])]
        simp only [Bool.or_eq_true, beq_iff_eq]
        constructor
        · rintro (h | h)
          · exact Or.inr (Or.inl h.symm)
          · exact Or.inr (Or.inr h)
        · rintro (h | h | h)
          · cases h
          · exact Or.inl h.symm
          · exact Or.inr h

/-- Claim C1, amended: a stored chunk is a candidate if and only if
(branchFilter is missing, empty, or "all", or chunk.branch = branchFilter,
or chunk.branch = "all") and (the same condition for year): passing "all" —
or no value, or the empty string — for a dimension applies no restriction on
that dimension.  `fetch_similar_documents` filters its table by exactly
`isCandidate`. -/
theorem C1_filter_semantics :
    ∀ (b y : Option String) (r : Row),
      isCandidate b y r = true ↔
        ((b = none ∨ b = some "" ∨ b = some "all" ∨ b = some r.branch ∨ r.branch = "all") ∧
         (y = none ∨ y = some "" ∨ y = some "all" ∨ y = some r.year ∨ r.year = "all")) := by
  intro b y r
  unfold isCandidate
  rw [Bool.and_eq_true, filter_dim b r.branch, filter_dim y r.year]



/-- Claim C2: when the query embedding succeeds and retrieval returns the
empty sequence, `answer_query` returns the fixed "no relevant context"
sentinel and the generative model is never invoked (the trace flag is
`false`). -/
theorem C2_empty_context_sentinel :
    ∀ (svc : EmbedSvc) (dist : Vec → Vec → ℚ) (table : List Row) (gen : GenSvc)
      (q : String) (branch year : Option String) (qe : Vec) (rest : List Vec),
      get_embeddings svc [q] = some (qe :: rest) →
      fetch_similar_documents dist table (some qe) 7 branch year = [] →
      answer_query_tr svc dist table gen q branch year =
        ("No relevant context found in the database.", false) := by
  intro svc dist table gen q b y qe rest hE hF
  simp [answer_query_tr, hE, hF]

/-- Witness for C2: a concrete run over an empty table. -/
theorem C2_witness :
    answer_query_tr exSvcV distZero [] genNone "q" (some "all") (some "all") =
      ("No relevant context found in the database.", false) :=
  C2_empty_context_sentinel exSvcV distZero [] genNone "q" (some "all") (some "all") [0] []
    (by simp [get_embeddings, get_embeddings_tr, exSvcV]) rfl

/-- Claim C7: the answer operation never raises outward — its result is
always displayable text: one of the three fixed sentinel strings or a text
the generative service returned.  Moreover, whenever the generative call
fails and the pipeline did reach it, the result is exactly the fixed
human-readable error string from `get_gemini_response`. -/
theorem C7_total_answer :
    ∀ (svc : EmbedSvc) (dist : Vec → Vec → ℚ) (table : List Row) (gen : GenSvc)
      (q : String) (branch year : Option String),
      ((answer_query_tr svc dist table gen q branch year).1 = "Error processing your query." ∨
       (answer_query_tr svc dist table gen q branch year).1 =
         "No relevant context found in the database." ∨
       (answer_query_tr svc dist table gen q branch year).1 =
         "Error fetching response from Gemini API." ∨
       (∃ ctx, gen ctx q = some ((answer_query_tr svc dist table gen q branch year).1))) ∧
      ((∀ ctx, gen ctx q = none) →
        (answer_query_tr svc dist table gen q branch year).2 = true →
        (answer_query_tr svc dist table gen q branch year).1 =
          "Error fetching response from Gemini API.") := by
  intro svc dist table gen q b y
  rcases hE : get_embeddings svc [q] with _ | (_ | ⟨qe, rest⟩)
  · constructor
    · exact Or.inl (by simp [answer_query_tr, hE])
    · intro _ h2
      simp [answer_query_tr, hE] at h2
  · constructor
    · exact Or.inl (by simp [answer_query_tr, hE])
    · intro _ h2
      simp [answer_query_tr, hE] at h2
  · by_cases hF : (fetch_similar_documents dist table (some qe) 7 b y).isEmpty
    · constructor
      · exact Or.inr (Or.inl (by simp [answer_query_tr, hE, hF]))
      · intro _ h2
        simp [answer_query_tr, hE, hF] at h2
    · cases hG : gen ((fetch_similar_documents dist table (some qe) 7 b y).map
          (fun d => (d.row.content, d.row.doc_name))) q with
      | none =>
          constructor
          · refine Or.inr (Or.inr (Or.inl ?_))
            simp [answer_query_tr, hE, hF, get_gemini_response, hG]
          · intro _ _
            simp [answer_query_tr, hE, hF, get_gemini_response, hG]
      | some t =>
          have hA : (answer_query_tr svc dist table gen q b y).1 = t := by
            simp [answer_query_tr, hE, hF, get_gemini_response, hG]
          constructor
          · refine Or.inr (Or.inr (Or.inr
              ⟨(fetch_similar_documents dist table (some qe) 7 b y).map
                (fun d => (d.row.content, d.row.doc_name)), ?_⟩))
            rw [hA, hG]
          · intro hAll _
            rw [hAll] at hG
            cases hG



/-- Claim C4: for every query vector and `top_k`, similarity search returns
at most `top_k` chunks, ordered descending by similarity, and each returned
chunk is a stored row whose score is `1 - dist(query, stored vector)` where
`dist` is the storage engine's cosine-distance operator. -/
theorem C4_topk_ranking :
    ∀ (dist : Vec → Vec → ℚ) (table : List Row) (q : Vec) (top_k : Nat)
      (branch year : Option String),
      (fetch_similar_documents dist table (some q) top_k branch year).length ≤ top_k ∧
      List.Sorted scoreGe (fetch_similar_documents dist table (some q) top_k branch year) ∧
      (∀ d ∈ fetch_similar_documents dist table (some q) top_k branch year,
        d.row ∈ table ∧ d.similarity = 1 - dist q d.row.embedding) := by
  intro dist table q k b y
  refine ⟨?_, ?_, ?_⟩
  · exact List.length_take_le k _
  · exact List.Pairwise.sublist (List.take_sublist k _)
      (List.sorted_insertionSort scoreGe _)
  · intro d hd
    have hd1 : d ∈ List.insertionSort scoreGe ((table.filter (isCandidate b y)).map
        (fun r => ⟨r, 1 - dist q r.embedding⟩)) := List.mem_of_mem_take hd
    have hd2 := (List.perm_insertionSort scoreGe _).mem_iff.1 hd1
    rcases List.mem_map.1 hd2 with ⟨r, hr, rfl⟩
    exact ⟨(List.mem_filter.1 hr).1, rfl⟩



/-- Text that fits in one window yields exactly one chunk. -/
theorem chunkText_short (S O : Nat) (t : List Char) (h : t.length ≤ S) :
    chunkText S O t = [t] := by
  rw [chunkText, dif_pos (Or.inl h)]

/-- One unfolding of `chunkText` when the text exceeds the window. -/
theorem chunkText_long (S O : Nat) (t : List Char) (hOS : O < S) (h : S < t.length) :
    chunkText S O t = t.take S :: chunkText S O (t.drop (S - O)) := by
  rw [chunkText, dif_neg]
  push_neg
  exact ⟨h, hOS⟩

/-- The first chunk is always the first `S` characters. -/
theorem chunkText_head (S O : Nat) (hOS : O < S) (t : List Char) :
    (chunkText S O t).head? = some (t.take S) := by
  by_cases h : t.length ≤ S
  · rw [chunkText_short S O t h, List.head?_cons, List.take_of_length_le h]
  · rw [chunkText_long S O t hOS (not_le.1 h), List.head?_cons]

/-- Chunk count: 1 when the text fits, else the ceiling of
`(L - O) / (S - O)` (written with truncated division). -/
theorem chunkText_length_eq (S O : Nat) (hOS : O < S) :
    ∀ n (t : List Char), t.length ≤ n →
      (chunkText S O t).length =
        if t.length ≤ S then 1 else (t.length - O + (S - O) - 1) / (S - O) := by
  intro n
  induction n with
  | zero =>
      intro t ht
      have h0 : t.length = 0 := Nat.le_zero.1 ht
      rw [chunkText_short S O t (by omega), if_pos (by omega)]
      rfl
  | succ n ih =>
      intro t ht
      by_cases hshort : t.length ≤ S
      · rw [chunkText_short S O t hshort, if_pos hshort]
        rfl
      · push_neg at hshort
        have hd : 0 < S - O := by omega
        have hlt : 0 < t.length := by omega
        rw [chunkText_long S O t hOS hshort, if_neg (not_le.2 hshort)]
        simp only [List.length_cons]
        have hdroplen : (t.drop (S - O)).length = t.length - (S - O) :=
          List.length_drop (S - O) t
        rw [ih (t.drop (S - O)) (by rw [hdroplen]; omega), hdroplen]
        have e2 : t.length - O + (S - O) - 1 = t.length - O - 1 + (S - O) := by omega
        by_cases h2 : t.length - (S - O) ≤ S
        · have hq : (t.length - O - 1) / (S - O) = 1 :=
            Nat.div_eq_of_lt_le (by omega) (by omega)
          rw [if_pos h2, e2, Nat.add_div_right _ hd, hq]
        · rw [if_neg h2]
          have e1 : t.length - (S - O) - O + (S - O) - 1 = t.length - O - 1 := by omega
          rw [e1, e2, Nat.add_div_right _ hd]

/-- Every chunk of a text longer than the overlap is itself longer than
the overlap, so overlaps of exactly `O` characters are meaningful. -/
theorem chunkText_mem_len (S O : Nat) (hOS : O < S) :
    ∀ n (t : List Char), t.length ≤ n → O < t.length →
      ∀ c ∈ chunkText S O t, O < c.length := by
  intro n
  induction n with
  | zero =>
      intro t ht hO c _
      omega
  | succ n ih =>
      intro t ht hO c hc
      by_cases hshort : t.length ≤ S
      · rw [chunkText_short S O t hshort] at hc
        rcases List.mem_singleton.1 hc with rfl
        exact hO
      · push_neg at hshort
        rw [chunkText_long S O t hOS hshort] at hc
        rcases List.mem_cons.1 hc with rfl | hc
        · rw [List.length_take]
          omega
        · have hdroplen : (t.drop (S - O)).length = t.length - (S - O) :=
            List.length_drop (S - O) t
          exact ih (t.drop (S - O)) (by rw [hdroplen]; omega)
            (by rw [hdroplen]; omega) c hc

/-- Consecutive chunks agree on the `O`-character boundary: the last `O`
characters of each chunk are the first `O` characters of the next. -/
theorem chunkText_chain (S O : Nat) (hOS : O < S) :
    ∀ n (t : List Char), t.length ≤ n →
      List.Chain' (fun a b => a.drop (a.length - O) = b.take O) (chunkText S O t) := by
  intro n
  induction n with
  | zero =>
      intro t ht
      rw [chunkText_short S O t (by omega)]
      exact List.chain'_singleton t
  | succ n ih =>
      intro t ht
      by_cases hshort : t.length ≤ S
      · rw [chunkText_short S O t hshort]
        exact List.chain'_singleton t
      · push_neg at hshort
        rw [chunkText_long S O t hOS hshort]
        have hdroplen : (t.drop (S - O)).length = t.length - (S - O) :=
          List.length_drop (S - O) t
        refine List.chain'_cons'.2
          ⟨?_, ih (t.drop (S - O)) (by rw [hdroplen]; omega)⟩
        intro b hb
        rw [chunkText_head S O hOS] at hb
        have hb_eq : b = (t.drop (S - O)).take S := by
          have := hb
          simp only [Option.mem_def, Option.some.injEq] at this
          exact this.symm
        subst hb_eq
        have hlen : (t.take S).length = S := by
          rw [List.length_take]
          omega
        rw [hlen, List.take_take, Nat.min_eq_left (Nat.le_of_lt hOS),
          List.drop_take S (S - O) t]
        congr 1
        omega

/-- Claim C8 (chunker modelled from the spec, §4.1): for text of length
`L` with window `S` and overlap `O < S`, the chunker yields exactly one
chunk when `L ≤ S`; when `L > S` it yields `⌈(L - O) / (S - O)⌉` chunks,
every chunk is longer than `O`, and consecutive chunks share exactly `O`
characters (the `O`-suffix of each equals the `O`-prefix of the next). -/
theorem C8_chunk_count_overlap :
    ∀ (S O : Nat) (t : List Char), O < S →
      (t.length ≤ S → chunkText S O t = [t]) ∧
      (S < t.length →
        (chunkText S O t).length = (t.length - O + (S - O) - 1) / (S - O) ∧
        (∀ c ∈ chunkText S O t, O < c.length) ∧
        List.Chain' (fun a b => a.drop (a.length - O) = b.take O) (chunkText S O t)) := by
  intro S O t hOS
  constructor
  · intro h
    exact chunkText_short S O t h
  · intro h
    refine ⟨?_, ?_, ?_⟩
    · rw [chunkText_length_eq S O hOS t.length t le_rfl, if_neg (not_le.2 h)]
    · exact chunkText_mem_len S O hOS t.length t le_rfl (by omega)
    · exact chunkText_chain S O hOS t.length t le_rfl

/-- Witness for C8 at `S = 5`, `O = 2` and a 12-character text:
4 chunks, overlapping pairwise in exactly 2 characters. -/
theorem C8_witness :
    (("abcdefghijkl".toList.length ≤ 5 →
        chunkText 5 2 "abcdefghijkl".toList = ["abcdefghijkl".toList]) ∧
     (5 < "abcdefghijkl".toList.length →
       (chunkText 5 2 "abcdefghijkl".toList).length =
         ("abcdefghijkl".toList.length - 2 + (5 - 2) - 1) / (5 - 2) ∧
       (∀ c ∈ chunkText 5 2 "abcdefghijkl".toList, 2 < c.length) ∧
       List.Chain' (fun a b => a.drop (a.length - 2) = b.take 2)
         (chunkText 5 2 "abcdefghijkl".toList))) :=
  C8_chunk_count_overlap 5 2 "abcdefghijkl".toList (by decide)


end CampusSetu
